import Mathlib

/-!
Shallow embedding of the ITNB_Project repository (scrape.py, chat.py,
check_status.py) and proofs about the claims of its specification.

Python strings are modelled as `List Char` (Python `len` counts code points,
matching `List.length` over `Char`).  The helpers below reproduce the exact
semantics of the Python string primitives used by the source:
`str.splitlines`, `str.strip`, `str.split(sep)` and f-string assembly.
`hashlib.md5(text.encode()).hexdigest()[:12]` is implemented bit-for-bit
(UTF-8 encoding followed by the MD5 compression function over `Nat` with
explicit `% 2^32` arithmetic).
-/

set_option maxRecDepth 100000

namespace ITNB

/-- Python `str.isspace` / default `str.strip` character class. -/
def isPySpace (c : Char) : Bool :=
  let n := c.toNat
  decide ((9 ≤ n ∧ n ≤ 13) ∨ (28 ≤ n ∧ n ≤ 31) ∨ n = 32 ∨ n = 133 ∨ n = 160 ∨
    n = 5760 ∨ (8192 ≤ n ∧ n ≤ 8202) ∨ n = 8232 ∨ n = 8233 ∨ n = 8239 ∨
    n = 8287 ∨ n = 12288)

/-- Python `str.splitlines` line-boundary character class (excluding the
two-character boundary `\r\n` which is handled separately). -/
def isLineBreak (c : Char) : Bool :=
  let n := c.toNat
  decide (n = 10 ∨ n = 11 ∨ n = 12 ∨ n = 13 ∨ n = 28 ∨ n = 29 ∨ n = 30 ∨
    n = 133 ∨ n = 8232 ∨ n = 8233)

/-- Worker for `pySplitlines`; `cur` is the current line accumulated in
reverse. -/
def pySplitlinesAux : List Char → List Char → List (List Char)
  | cur, [] => [cur.reverse]
  | cur, '\r' :: '\n' :: rest =>
    if rest.isEmpty then [cur.reverse] else cur.reverse :: pySplitlinesAux [] rest
  | cur, c :: rest =>
    if isLineBreak c then
      (if rest.isEmpty then [cur.reverse] else cur.reverse :: pySplitlinesAux [] rest)
    else pySplitlinesAux (c :: cur) rest

/-- Python `str.splitlines()`: no trailing empty line for a trailing
boundary, and the empty string yields no lines at all. -/
def pySplitlines (s : List Char) : List (List Char) :=
  if s.isEmpty then [] else pySplitlinesAux [] s

/-- Python `str.strip()` with no argument: remove leading and trailing
whitespace. -/
def pyStrip (s : List Char) : List Char :=
  ((s.dropWhile isPySpace).reverse.dropWhile isPySpace).reverse

/-- Worker for `pySplit`: leftmost-first scan for non-overlapping
occurrences of `sep`.  The fuel argument only serves structural
termination; it is always sufficient for the non-empty separators used by
the source. -/
def pySplitAux (sep : List Char) : Nat → List Char → List Char → List (List Char)
  | 0, cur, rest => [cur.reverse ++ rest]
  | fuel + 1, cur, s =>
    if sep.isPrefixOf s then cur.reverse :: pySplitAux sep fuel [] (s.drop sep.length)
    else
      match s with
      | [] => [cur.reverse]
      | c :: cs => pySplitAux sep fuel (c :: cur) cs

/-- Python `str.split(sep)` for a non-empty separator `sep`. -/
def pySplit (sep s : List Char) : List (List Char) :=
  pySplitAux sep (s.length + 1) [] s

/-- Length of the longest element of a list of strings (0 for the empty
list); used to bound the greedy paragraph grouping. -/
def maxLen (l : List (List Char)) : Nat :=
  l.foldr (fun x m => max x.length m) 0

/-! ### UTF-8 and MD5 (`hashlib.md5(text.encode())`) -/

/-- UTF-8 encoding of a sequence of Unicode scalar values, as a list of
byte values; matches Python `str.encode()`. -/
def utf8Bytes : List Char → List Nat
  | [] => []
  | c :: cs =>
    let n := c.toNat
    (if n < 128 then [n]
     else if n < 2048 then [192 + n / 64, 128 + n % 64]
     else if n < 65536 then [224 + n / 4096, 128 + (n / 64) % 64, 128 + n % 64]
     else [240 + n / 262144, 128 + (n / 4096) % 64, 128 + (n / 64) % 64, 128 + n % 64])
      ++ utf8Bytes cs

/-- The 64 MD5 sine-derived round constants. -/
def md5K : List Nat :=
  [0xd76aa478, 0xe8c7b756, 0x242070db, 0xc1bdceee,
   0xf57c0faf, 0x4787c62a, 0xa8304613, 0xfd469501,
   0x698098d8, 0x8b44f7af, 0xffff5bb1, 0x895cd7be,
   0x6b901122, 0xfd987193, 0xa679438e, 0x49b40821,
   0xf61e2562, 0xc040b340, 0x265e5a51, 0xe9b6c7aa,
   0xd62f105d, 0x02441453, 0xd8a1e681, 0xe7d3fbc8,
   0x21e1cde6, 0xc33707d6, 0xf4d50d87, 0x455a14ed,
   0xa9e3e905, 0xfcefa3f8, 0x676f02d9, 0x8d2a4c8a,
   0xfffa3942, 0x8771f681, 0x6d9d6122, 0xfde5380c,
   0xa4beea44, 0x4bdecfa9, 0xf6bb4b60, 0xbebfbc70,
   0x289b7ec6, 0xeaa127fa, 0xd4ef3085, 0x04881d05,
   0xd9d4d039, 0xe6db99e5, 0x1fa27cf8, 0xc4ac5665,
   0xf4292244, 0x432aff97, 0xab9423a7, 0xfc93a039,
   0x655b59c3, 0x8f0ccc92, 0xffeff47d, 0x85845dd1,
   0x6fa87e4f, 0xfe2ce6e0, 0xa3014314, 0x4e0811a1,
   0xf7537e82, 0xbd3af235, 0x2ad7d2bb, 0xeb86d391]

/-- The 64 MD5 per-round left-rotation amounts. -/
def md5S : List Nat :=
  [7, 12, 17, 22, 7, 12, 17, 22, 7, 12, 17, 22, 7, 12, 17, 22,
   5, 9, 14, 20, 5, 9, 14, 20, 5, 9, 14, 20, 5, 9, 14, 20,
   4, 11, 16, 23, 4, 11, 16, 23, 4, 11, 16, 23, 4, 11, 16, 23,
   6, 10, 15, 21, 6, 10, 15, 21, 6, 10, 15, 21, 6, 10, 15, 21]

/-- Left rotation of a 32-bit value (given as a `Nat` below `2^32`). -/
def rotl32 (x n : Nat) : Nat :=
  ((x <<< n) ||| (x >>> (32 - n))) % 4294967296

/-- Bitwise complement of a 32-bit value. -/
def not32 (x : Nat) : Nat := 4294967295 - x

/-- Little-endian 32-bit word number `i` of a byte list. -/
def le32 (b : List Nat) (i : Nat) : Nat :=
  b.getD (4 * i) 0 + 256 * b.getD (4 * i + 1) 0 + 65536 * b.getD (4 * i + 2) 0 +
    16777216 * b.getD (4 * i + 3) 0

/-- One MD5 round (round index `i`, state `(A, B, C, D)`). -/
def md5Round (chunk : List Nat) (st : Nat × Nat × Nat × Nat) (i : Nat) :
    Nat × Nat × Nat × Nat :=
  let A := st.1
  let B := st.2.1
  let C := st.2.2.1
  let D := st.2.2.2
  let fg : Nat × Nat :=
    if i < 16 then ((B &&& C) ||| (not32 B &&& D), i)
    else if i < 32 then ((D &&& B) ||| (not32 D &&& C), (5 * i + 1) % 16)
    else if i < 48 then (B ^^^ C ^^^ D, (3 * i + 5) % 16)
    else (C ^^^ (B ||| not32 D), (7 * i) % 16)
  let F := (fg.1 + A + md5K.getD i 0 + le32 chunk fg.2) % 4294967296
  (D, (B + rotl32 F (md5S.getD i 0)) % 4294967296, B, C)

/-- Digest one 64-byte chunk into the running MD5 state. -/
def md5Chunk (st : Nat × Nat × Nat × Nat) (chunk : List Nat) :
    Nat × Nat × Nat × Nat :=
  let r := (List.range 64).foldl (md5Round chunk) st
  ((st.1 + r.1) % 4294967296, (st.2.1 + r.2.1) % 4294967296,
   (st.2.2.1 + r.2.2.1) % 4294967296, (st.2.2.2 + r.2.2.2) % 4294967296)

/-- Little-endian byte decomposition of a 64-bit length value. -/
def le64Bytes (n : Nat) : List Nat :=
  [n % 256, (n >>> 8) % 256, (n >>> 16) % 256, (n >>> 24) % 256,
   (n >>> 32) % 256, (n >>> 40) % 256, (n >>> 48) % 256, (n >>> 56) % 256]

/-- MD5 padding: a `0x80` byte, zeros to 56 mod 64, then the bit length. -/
def md5Pad (msg : List Nat) : List Nat :=
  msg ++ [128] ++ List.replicate ((120 - (msg.length + 1) % 64) % 64) 0 ++
    le64Bytes ((msg.length * 8) % 18446744073709551616)

/-- Split a byte list into 64-byte chunks (fuel-driven for structural
termination; the fuel is always sufficient). -/
def chunks64 : Nat → List Nat → List (List Nat)
  | _, [] => []
  | 0, l => [l]
  | fuel + 1, l => l.take 64 :: chunks64 fuel (l.drop 64)

/-- Little-endian byte decomposition of one 32-bit state word. -/
def le32Bytes (n : Nat) : List Nat :=
  [n % 256, (n >>> 8) % 256, (n >>> 16) % 256, (n >>> 24) % 256]

/-- Full MD5 digest (16 bytes) of a byte list. -/
def md5Bytes (msg : List Nat) : List Nat :=
  let padded := md5Pad msg
  let st := (chunks64 padded.length padded).foldl md5Chunk
    (1732584193, 4023233417, 2562383102, 271733878)
  le32Bytes st.1 ++ le32Bytes st.2.1 ++ le32Bytes st.2.2.1 ++ le32Bytes st.2.2.2

/-- Lowercase hexadecimal digit. -/
def hexChar (n : Nat) : Char := "0123456789abcdef".data.getD n '0'

/-- Two-character lowercase hexadecimal rendering of a byte. -/
def byteHex (b : Nat) : List Char := [hexChar (b / 16), hexChar (b % 16)]

/-- Lowercase hex digest of a byte list, as `hashlib.md5(..).hexdigest()`. -/
def md5Hex (msg : List Nat) : List Char :=
  ((md5Bytes msg).map byteHex).flatten

/-- scrape.py `_generate_id` (lines 319-321):
`hashlib.md5(text.encode()).hexdigest()[:12]`. -/
def _generate_id (text : String) : String :=
  String.mk ((md5Hex (utf8Bytes text.data)).take 12)

/-! ### Data model (scrape.py record dictionaries) -/

/-- A page record (scrape.py lines 206-212). -/
structure PageData where
  id : String
  title : String
  url : String
  content : String
  character_count : Nat
deriving Repr, DecidableEq

/-- A section record (scrape.py lines 249-255; `page_id` is `None` when the
page itself was rejected, hence `Option`). -/
structure SectionData where
  id : String
  page_id : Option String
  title : String
  url : String
  paragraph_count : Nat
deriving Repr, DecidableEq

/-- A paragraph record (scrape.py lines 291-298). -/
structure ParagraphData where
  id : String
  section_id : String
  page_id : Option String
  content : String
  character_count : Nat
  url : String
deriving Repr, DecidableEq

/-! ### Content extraction (scrape.py `_extract_page_content`) -/

/-- The whitespace-normalization pipeline shared by
`_extract_page_content` (lines 196-199) and
`_extract_sections_and_paragraphs` (lines 225-228):
strip every line, split each line on double spaces, strip the pieces, and
rejoin the non-empty pieces with single newlines. -/
def normalizeText (text : List Char) : List Char :=
  let lines := (pySplitlines text).map pyStrip
  let chunks := (lines.map (fun line => (pySplit [' ', ' '] line).map pyStrip)).flatten
  List.intercalate ['\n'] (chunks.filter (fun c => !c.isEmpty))

/-- scrape.py `_extract_page_content` (lines 181-214).  The HTML-level
title extraction (h1 / title tag / URL host) is opaque to this model and
enters as the `title` argument; `text` is the visible text of the page
(`soup.get_text()`). -/
def _extract_page_content (url title : String) (text : String) : Option PageData :=
  let content := normalizeText text.data
  if content.isEmpty || content.length < 50 then none
  else
    some { id := _generate_id url, title := title, url := url,
           content := String.mk content, character_count := content.length }

/-! ### Hierarchical segmenter (scrape.py `_extract_sections_and_paragraphs`) -/

/-- Greedy accumulation step (scrape.py lines 269-275): state is the
pair (current_para, para_candidates collected so far). -/
def greedyAccum (st : List Char × List (List Char)) (part : List Char) :
    List Char × List (List Char) :=
  if 200 < st.1.length + part.length then
    (part, if st.1.isEmpty then st.2 else st.2 ++ [pyStrip st.1])
  else
    (if st.1.isEmpty then part else st.1 ++ '.' :: ' ' :: part, st.2)

/-- Paragraph-candidate construction for one section (scrape.py lines
257-278): split on newlines when present, otherwise greedily group
sentence fragments obtained by splitting on the two-character sequence
". ". -/
def buildParaCandidates (section_text : List Char) : List (List Char) :=
  if section_text.contains '\n' then pySplit ['\n'] section_text
  else
    let text_parts := pySplit ['.', ' '] section_text
    let st := text_parts.foldl greedyAccum ([], [])
    st.2 ++ (if st.1.isEmpty then [] else [pyStrip st.1])

/-- Mutable state of the section loop in
`_extract_sections_and_paragraphs` (scrape.py lines 237-238 and the
`self.sections` / `self.paragraphs` lists it appends to). -/
structure SegState where
  section_counter : Nat
  paragraph_counter : Nat
  sections : List SectionData
  paragraphs : List ParagraphData
deriving Repr, DecidableEq

/-- The paragraph record built at scrape.py lines 289-298 for the
paragraph with page-global ordinal `n` (1-based). -/
def mkPara (url : String) (pid : Option String) (sid : String) (n : Nat)
    (content : List Char) : ParagraphData :=
  { id := _generate_id (url ++ "#para#" ++ toString n),
    section_id := sid, page_id := pid, content := String.mk content,
    character_count := content.length, url := url }

/-- Body of the paragraph loop (scrape.py lines 282-306).  The state is
(paragraph_counter, para_count, paragraphs). -/
def paraStep (url : String) (pid : Option String) (sid : String)
    (st : Nat × Nat × List ParagraphData) (para_text0 : List Char) :
    Nat × Nat × List ParagraphData :=
  let para_text := pyStrip para_text0
  if 20 < para_text.length then
    (st.1 + 1, st.2.1 + 1, st.2.2 ++ [mkPara url pid sid (st.1 + 1) para_text])
  else st

/-- First line of a section truncated to 50 characters (scrape.py line
246). -/
def sectionTitleOf (t : List Char) : List Char :=
  ((pySplit ['\n'] t).headD []).take 50

/-- Section id input and hash (scrape.py line 247):
`self._generate_id(f"{url}#{section_counter}#{section_title}")`. -/
def sectionIdOf (url : String) (n : Nat) (t : List Char) : String :=
  _generate_id (url ++ "#" ++ toString n ++ "#" ++ String.mk (sectionTitleOf t))

/-- Body of the section loop (scrape.py lines 240-317). -/
def processSection (url : String) (pid : Option String) (st : SegState)
    (section_text : List Char) : SegState :=
  if section_text.length < 30 then st
  else
    let section_counter := st.section_counter + 1
    let section_id := sectionIdOf url section_counter section_text
    let para_candidates := buildParaCandidates section_text
    let r := para_candidates.foldl (paraStep url pid section_id)
      (st.paragraph_counter, 0, st.paragraphs)
    if 0 < r.2.1 then
      { section_counter := section_counter, paragraph_counter := r.1,
        sections := st.sections ++
          [{ id := section_id, page_id := pid,
             title := String.mk (sectionTitleOf section_text), url := url,
             paragraph_count := r.2.1 }],
        paragraphs := r.2.2 }
    else
      { section_counter := section_counter, paragraph_counter := r.1,
        sections := st.sections, paragraphs := r.2.2 }

/-- The whole section loop of `_extract_sections_and_paragraphs` run on a
list of candidate sections, starting from fresh counters and empty
collections. -/
def runSections (url : String) (pid : Option String) (ts : List (List Char)) :
    SegState :=
  ts.foldl (processSection url pid) ⟨0, 0, [], []⟩

/-- Core of `_extract_sections_and_paragraphs` (scrape.py lines 230-317)
on already-normalized content: the length-100 admission gate, the split on
double newlines and the section loop; returns the section and paragraph
records appended to `self.sections` / `self.paragraphs`. -/
def segmentContent (url : String) (pid : Option String) (content : List Char) :
    List SectionData × List ParagraphData :=
  if content.isEmpty || content.length < 100 then ([], [])
  else
    let sections_text := pySplit ['\n', '\n'] content
    let final := runSections url pid sections_text
    (final.sections, final.paragraphs)

/-- scrape.py `_extract_sections_and_paragraphs` (lines 216-317): the
soup-level text of the page is normalized exactly as in
`_extract_page_content` and then segmented. -/
def _extract_sections_and_paragraphs (url : String) (text : String)
    (page_id : Option String) : List SectionData × List ParagraphData :=
  segmentContent url page_id (normalizeText text.data)

/-! ### Derived description of the section loop

The definitions below are not a second translation of the source: they
restate the effect of the loop in `_extract_sections_and_paragraphs` as a
list of (section, its admitted paragraphs) groups, and are proved equal to
the faithful fold (`runSections`) further down. -/

/-- The stripped paragraph candidates of a section that pass the
`len > 20` admission check (scrape.py lines 282-285). -/
def admittedParas (t : List Char) : List (List Char) :=
  ((buildParaCandidates t).map pyStrip).filter (fun p => 20 < p.length)

/-- The paragraph records created for the admitted paragraphs of one
section when the page-global paragraph counter starts at `pc`. -/
def mkParas (url : String) (pid : Option String) (sid : String) :
    Nat → List (List Char) → List ParagraphData
  | _, [] => []
  | pc, p :: ps => mkPara url pid sid (pc + 1) p :: mkParas url pid sid (pc + 1) ps

/-- Number of candidate sections passing the 30-character gate
(scrape.py line 241); this is exactly how often `section_counter` is
incremented. -/
def gateCount : List (List Char) → Nat
  | [] => 0
  | t :: ts => (if t.length < 30 then 0 else 1) + gateCount ts

/-- Total number of admitted paragraphs over a candidate-section list;
this is exactly how often `paragraph_counter` is incremented. -/
def admitTotal : List (List Char) → Nat
  | [] => 0
  | t :: ts => (if t.length < 30 then 0 else (admittedParas t).length) + admitTotal ts

/-- The (persisted section, its paragraph records) groups produced by the
section loop starting from counters `sc` and `pc`. -/
def segGroups (url : String) (pid : Option String) :
    Nat → Nat → List (List Char) → List (SectionData × List ParagraphData)
  | _, _, [] => []
  | sc, pc, t :: ts =>
    if t.length < 30 then segGroups url pid sc pc ts
    else
      let sid := sectionIdOf url (sc + 1) t
      let ps := admittedParas t
      if ps.isEmpty then segGroups url pid (sc + 1) pc ts
      else
        (⟨sid, pid, String.mk (sectionTitleOf t), url, ps.length⟩,
          mkParas url pid sid pc ps) :: segGroups url pid (sc + 1) (pc + ps.length) ts

/-- The paragraph records of `l`, taken in order, carry the
content-addressed ids `url#para#(n+1)`, `url#para#(n+2)`, ... -/
def paraIdsFrom (url : String) : Nat → List ParagraphData → Prop
  | _, [] => True
  | n, p :: ps =>
    p.id = _generate_id (url ++ "#para#" ++ toString (n + 1)) ∧ paraIdsFrom url (n + 1) ps

/-! ### chat.py query client -/

/-- One ranked hit of a GroundX search response (only the fields read by
chat.py). -/
structure SearchHit where
  score : Rat
  source_url : Option String
deriving Repr, DecidableEq

/-- The `response.search` payload of a GroundX search response as read by
chat.py lines 154-239: ranked results, a result count, an aggregate
relevance score (0-100 scale) and an optional synthesized text span. -/
structure SearchData where
  results : List SearchHit
  count : Nat
  score : Rat
  text : Option String
deriving Repr, DecidableEq

/-- Outcome of `search_and_display`: which terminal branch ran and what
body was printed under the ANSWER banner. -/
inductive ChatResult where
  | noResponse
  | noInfoFound
  | lowRelevance
  | answer (body : String)
  | noDetail
deriving Repr, DecidableEq

/-- The literal truncation marker appended at chat.py line 215. -/
def truncation_marker : String := "\n\n[... answer truncated for readability ...]"

/-- Python slice `s[:n]` on a string. -/
def pyTake (s : String) (n : Nat) : String := String.mk (s.data.take n)

/-- Python `len` on a string (code points). -/
def pyLen (s : String) : Nat := s.data.length

/-- The boolean value `search_and_display` returns in each terminal
branch (True at chat.py line 243, False at 170, 186, 254). -/
def chatReturns : ChatResult → Bool
  | .answer _ => true
  | .noDetail => true
  | _ => false

/-- The display fallback of chat.py lines 209-220 when no usable LLM
response exists: show the raw context, truncated past 1500 characters,
or a placeholder message when the context is empty. -/
def fallbackDisplay (context : String) : ChatResult :=
  if context ≠ "" then
    (if 1500 < pyLen context then .answer (pyTake context 1500 ++ truncation_marker)
     else .answer context)
  else .noDetail

/-- chat.py `search_and_display` (lines 123-254), with the two external
collaborators abstracted: `searchResp` is the (already validated
`response.search`) search payload, `none` standing for a falsy
`response`/`response.search`; `llm` is `generate_llm_response` as a
function of the retrieved context (`none` = API failure). -/
def search_and_display (searchResp : Option SearchData)
    (llm : String → Option String) : ChatResult :=
  match searchResp with
  | none => .noResponse
  | some sd =>
    if sd.results.isEmpty || sd.count == 0 then .noInfoFound
    else if sd.score < 50 then .lowRelevance
    else
      let context :=
        match sd.text with
        | some t => if t = "" then "" else t
        | none => ""
      match llm context with
      | some r => if r = "" then fallbackDisplay context else .answer r
      | none => fallbackDisplay context

/-! ### check_status.py continuous polling -/

/-- Worker for `check_status_continuous`: `fuel` is the number of
attempts still allowed (`max_attempts - attempt`) and `attempt` the
0-based index of the next check.  `statusAt i` is the ingestion status
reported by the i-th `check_status` call (`none` models an API error or a
response without ingest data).  Returns (result, number of checks
performed, number of 5-second sleeps performed). -/
def pollFrom (statusAt : Nat → Option String) : Nat → Nat → Bool × Nat × Nat
  | 0, _ => (false, 0, 0)
  | fuel + 1, attempt =>
    if statusAt attempt = some "complete" then (true, 1, 0)
    else
      let r := pollFrom statusAt fuel (attempt + 1)
      (r.1, r.2.1 + 1, (if 0 < fuel then 1 else 0) + r.2.2)

/-- check_status.py `check_status_continuous` (lines 177-229): poll until
a check reports status complete or `max_attempts` checks have been made,
sleeping 5 seconds between consecutive checks; returns True on
completion and False on timeout. -/
def check_status_continuous (statusAt : Nat → Option String)
    (max_attempts : Nat) : Bool × Nat × Nat :=
  pollFrom statusAt max_attempts 0

/-- Index (0-based, relative to `a`) of the first of `fuel` consecutive
checks reporting complete, if any. -/
def firstCompleteIdx (statusAt : Nat → Option String) : Nat → Nat → Option Nat
  | 0, _ => none
  | fuel + 1, a =>
    if statusAt a = some "complete" then some 0
    else (firstCompleteIdx statusAt fuel (a + 1)).map (· + 1)

/-! ### scrape.py crawl driver -/

/-- The scraper state owned by one `ITNBScraper` instance: the visited-URL
set, the collected records, and (for specification purposes) the log of
URLs actually passed to `requests.get`.  The `index` bookkeeping of
scrape.py, which merely mirrors id/title fields of these collections, is
not modelled. -/
structure CrawlState where
  visited : List String
  fetched : List String
  pages : List PageData
  sections : List SectionData
  paragraphs : List ParagraphData
deriving Repr, DecidableEq

/-- scrape.py `_scrape_page` (lines 144-179).  `fetch url` models
`requests.get` plus HTML parsing, returning the page title and visible
text, or `none` when the request/parsing raises (the `except` branch at
line 178).  The body contains no recursive call: discovered links are
never followed, so one invocation visits at most the given URL. -/
def _scrape_page (fetch : String → Option (String × String)) (max_pages : Nat)
    (st : CrawlState) (url : String) (depth : Nat) (max_depth : Nat) : CrawlState :=
  if max_depth < depth ∨ max_pages ≤ st.visited.length then st
  else if url ∈ st.visited then st
  else
    let st1 := { st with visited := st.visited ++ [url],
                         fetched := st.fetched ++ [url] }
    match fetch url with
    | none => st1
    | some (title, text) =>
      let page_data := _extract_page_content url title text
      let pages2 :=
        match page_data with
        | some pd => st1.pages ++ [pd]
        | none => st1.pages
      let r := _extract_sections_and_paragraphs url text (page_data.map (fun pd => pd.id))
      { st1 with pages := pages2, sections := st1.sections ++ r.1,
                 paragraphs := st1.paragraphs ++ r.2 }

/-- The crawling phase of scrape.py `scrape_website` (line 117): a single
`_scrape_page(base_url, 0)` call on a fresh scraper state.
`scrape_website` itself always uses the default `max_depth = 2`; the
parameter is kept so that crawl-bound claims can be stated for any
configured depth. -/
def crawlSite (fetch : String → Option (String × String))
    (max_pages max_depth : Nat) (base_url : String) : CrawlState :=
  _scrape_page fetch max_pages ⟨[], [], [], [], []⟩ base_url 0 max_depth

/-- The record triple appended for one page by `_scrape_page` lines
164-176: the admitted page (if any) and the section/paragraph records,
which receive `page_data["id"] if page_data else None` as parent id. -/
def scrapePageRecords (url title text : String) :
    Option PageData × List SectionData × List ParagraphData :=
  let page_data := _extract_page_content url title text
  let r := _extract_sections_and_paragraphs url text (page_data.map (fun pd => pd.id))
  (page_data, r.1, r.2)

/-! ### Concrete inputs used to witness the claims below -/

/-- A page text that normalizes to itself: three lines of 37 characters,
113 characters in total. -/
def w1text : String :=
  "abcdefghijklmnopqrstuvwxyz abcdefghij\nabcdefghijklmnopqrstuvwxyz abcdefghij\nabcdefghijklmnopqrstuvwxyz abcdefghij"

/-- A 250-character fragment with no newline and no sentence boundary. -/
def w3sec : List Char := List.replicate 250 'a'

/-- A minimal candidate section: exactly 30 characters, one admitted
paragraph. -/
def w4sec : List Char := List.replicate 30 'a'

/-- Placeholder section record for positional lookups in witnesses. -/
def secDefault : SectionData :=
  { id := "", page_id := none, title := "", url := "", paragraph_count := 0 }

/-- A fetch oracle whose page is too thin to pass the 50-character page
admission. -/
def w6fetch : String → Option (String × String) := fun _ => some ("T", "tiny")

/-- A search response with a ranked hit but count 0 and score 49. -/
def w7sdA : SearchData :=
  { results := [{ score := 49, source_url := none }], count := 0, score := 49,
    text := none }

/-- A search response with one hit, count 1 and score 49. -/
def w7sdB : SearchData :=
  { results := [{ score := 49, source_url := none }], count := 1, score := 49,
    text := none }

/-- A search response with one hit, count 0 and score 50. -/
def w7sdC : SearchData :=
  { results := [{ score := 50, source_url := none }], count := 0, score := 50,
    text := none }

/-- A 2000-character retrieved context. -/
def w8text : String := String.mk (List.replicate 2000 'x')

/-- A search response passing all validation checks whose context is
`w8text`. -/
def w8sd : SearchData :=
  { results := [{ score := 99, source_url := none }], count := 1, score := 99,
    text := some w8text }

/-- A status oracle that reports completion on the third check. -/
def w9status : Nat → Option String :=
  fun i => if i = 2 then some "complete" else some "training"

/-! ### Lemmas: the section loop computes the groups description -/

/-- The stripped candidates of a list that pass the length-20 admission
check; `admittedParas t = admittedOf (buildParaCandidates t)`. -/
def admittedOf (cands : List (List Char)) : List (List Char) :=
  (cands.map pyStrip).filter (fun p => 20 < p.length)

theorem admittedParas_eq (t : List Char) :
    admittedParas t = admittedOf (buildParaCandidates t) := rfl

/-- A paragraph candidate whose stripped length is at most 20 leaves the
paragraph-loop state unchanged. -/
theorem paraStep_skip (url : String) (pid : Option String) (sid : String)
    (st : Nat × Nat × List ParagraphData) (p : List Char)
    (h : (pyStrip p).length ≤ 20) : paraStep url pid sid st p = st := by
  simp [paraStep, Nat.not_lt.mpr h]

/-- A paragraph candidate whose stripped length exceeds 20 increments both
counters and appends exactly one paragraph record. -/
theorem paraStep_keep (url : String) (pid : Option String) (sid : String)
    (st : Nat × Nat × List ParagraphData) (p : List Char)
    (h : 20 < (pyStrip p).length) :
    paraStep url pid sid st p =
      (st.1 + 1, st.2.1 + 1, st.2.2 ++ [mkPara url pid sid (st.1 + 1) (pyStrip p)]) := by
  simp [paraStep, h]

/-- The paragraph loop of one section, fully described: it advances the
page-global counter by the number of admitted candidates and appends
exactly their records. -/
theorem paraFold_eq (url : String) (pid : Option String) (sid : String) :
    ∀ (cands : List (List Char)) (pc n : Nat) (paras : List ParagraphData),
      cands.foldl (paraStep url pid sid) (pc, n, paras) =
        (pc + (admittedOf cands).length, n + (admittedOf cands).length,
         paras ++ mkParas url pid sid pc (admittedOf cands)) := by
  intro cands
  induction cands with
  | nil => intro pc n paras; simp [admittedOf, mkParas]
  | cons c cs ih =>
    intro pc n paras
    simp only [List.foldl_cons]
    by_cases h : 20 < (pyStrip c).length
    · rw [paraStep_keep url pid sid _ _ h, ih]
      have hadm : admittedOf (c :: cs) = pyStrip c :: admittedOf cs := by
        simp [admittedOf, h]
      rw [hadm]
      simp only [mkParas, List.length_cons]
      rw [Prod.mk.injEq, Prod.mk.injEq]
      refine ⟨by omega, by omega, by simp⟩
    · rw [paraStep_skip url pid sid _ _ (Nat.not_lt.mp h), ih]
      have hadm : admittedOf (c :: cs) = admittedOf cs := by simp [admittedOf, h]
      rw [hadm]

/-- A candidate section shorter than 30 characters is skipped outright. -/
theorem processSection_skip (url : String) (pid : Option String)
    (st : SegState) (t : List Char) (h : t.length < 30) :
    processSection url pid st t = st := by
  simp [processSection, h]

/-- A candidate section passing the gate but yielding no admitted
paragraph only increments the section counter. -/
theorem processSection_zero (url : String) (pid : Option String)
    (sc pc : Nat) (secs : List SectionData) (paras : List ParagraphData)
    (t : List Char) (h : ¬ t.length < 30) (hk : admittedParas t = []) :
    processSection url pid ⟨sc, pc, secs, paras⟩ t = ⟨sc + 1, pc, secs, paras⟩ := by
  have hfold := paraFold_eq url pid (sectionIdOf url (sc + 1) t)
    (buildParaCandidates t) pc 0 paras
  rw [admittedParas_eq] at hk
  simp only [processSection, h, if_false]
  rw [hfold]
  simp [hk, mkParas]

/-- A candidate section passing the gate with at least one admitted
paragraph appends its section record and its paragraph records. -/
theorem processSection_pos (url : String) (pid : Option String)
    (sc pc : Nat) (secs : List SectionData) (paras : List ParagraphData)
    (t : List Char) (h : ¬ t.length < 30) (hk : admittedParas t ≠ []) :
    processSection url pid ⟨sc, pc, secs, paras⟩ t =
      ⟨sc + 1, pc + (admittedParas t).length,
       secs ++ [{ id := sectionIdOf url (sc + 1) t, page_id := pid,
                  title := String.mk (sectionTitleOf t), url := url,
                  paragraph_count := (admittedParas t).length }],
       paras ++ mkParas url pid (sectionIdOf url (sc + 1) t) pc (admittedParas t)⟩ := by
  have hfold := paraFold_eq url pid (sectionIdOf url (sc + 1) t)
    (buildParaCandidates t) pc 0 paras
  have hlen : 0 < (admittedParas t).length := List.length_pos.mpr hk
  rw [admittedParas_eq] at hlen
  simp only [processSection, h, if_false]
  rw [hfold]
  simp only [Nat.zero_add, hlen, if_pos]
  rw [admittedParas_eq]

/-- The section loop, fully described by `segGroups`, `gateCount` and
`admitTotal`. -/
theorem segFold_eq (url : String) (pid : Option String) :
    ∀ (ts : List (List Char)) (sc pc : Nat) (secs : List SectionData)
      (paras : List ParagraphData),
      ts.foldl (processSection url pid) ⟨sc, pc, secs, paras⟩ =
        ⟨sc + gateCount ts, pc + admitTotal ts,
         secs ++ (segGroups url pid sc pc ts).map Prod.fst,
         paras ++ ((segGroups url pid sc pc ts).map Prod.snd).flatten⟩ := by
  intro ts
  induction ts with
  | nil => intro sc pc secs paras; simp [gateCount, admitTotal, segGroups]
  | cons t ts ih =>
    intro sc pc secs paras
    simp only [List.foldl_cons]
    by_cases h : t.length < 30
    · rw [processSection_skip url pid _ _ h, ih]
      simp [gateCount, admitTotal, segGroups, h]
    · by_cases hk : admittedParas t = []
      · rw [processSection_zero url pid sc pc secs paras t h hk, ih]
        have hg : gateCount (t :: ts) = 1 + gateCount ts := by simp [gateCount, h]
        have ha : admitTotal (t :: ts) = admitTotal ts := by
          simp [admitTotal, h, hk]
        have hs : segGroups url pid sc pc (t :: ts) = segGroups url pid (sc + 1) pc ts := by
          simp [segGroups, h, hk]
        rw [hg, ha, hs, SegState.mk.injEq]
        refine ⟨by omega, rfl, rfl, rfl⟩
      · rw [processSection_pos url pid sc pc secs paras t h hk, ih]
        have hne : (admittedParas t).isEmpty = false := by
          simpa [List.isEmpty_iff] using hk
        have hg : gateCount (t :: ts) = 1 + gateCount ts := by simp [gateCount, h]
        have ha : admitTotal (t :: ts) = (admittedParas t).length + admitTotal ts := by
          simp [admitTotal, h]
        have hs : segGroups url pid sc pc (t :: ts) =
            ({ id := sectionIdOf url (sc + 1) t, page_id := pid,
               title := String.mk (sectionTitleOf t), url := url,
               paragraph_count := (admittedParas t).length },
             mkParas url pid (sectionIdOf url (sc + 1) t) pc (admittedParas t)) ::
              segGroups url pid (sc + 1) (pc + (admittedParas t).length) ts := by
          simp [segGroups, h, hne]
        rw [hg, ha, hs, List.map_cons, List.map_cons, List.flatten_cons, SegState.mk.injEq]
        refine ⟨by omega, by omega, by simp, by simp⟩

theorem mkParas_length (url : String) (pid : Option String) (sid : String) :
    ∀ (pc : Nat) (ps : List (List Char)),
      (mkParas url pid sid pc ps).length = ps.length := by
  intro pc ps
  induction ps generalizing pc with
  | nil => rfl
  | cons p ps ih => simp [mkParas, ih (pc + 1)]

theorem mkParas_mem (url : String) (pid : Option String) (sid : String) :
    ∀ (pc : Nat) (ps : List (List Char)) (q : ParagraphData),
      q ∈ mkParas url pid sid pc ps → q.section_id = sid ∧ q.page_id = pid := by
  intro pc ps
  induction ps generalizing pc with
  | nil => intro q hq; simp [mkParas] at hq
  | cons p ps ih =>
    intro q hq
    simp only [mkParas, List.mem_cons] at hq
    rcases hq with h | h
    · subst h; exact ⟨rfl, rfl⟩
    · exact ih (pc + 1) q h

theorem paraIdsFrom_append (url : String) :
    ∀ (xs : List ParagraphData) (n : Nat) (ys : List ParagraphData),
      paraIdsFrom url n (xs ++ ys) ↔
        (paraIdsFrom url n xs ∧ paraIdsFrom url (n + xs.length) ys) := by
  intro xs
  induction xs with
  | nil => intro n ys; simp [paraIdsFrom]
  | cons x xs ih =>
    intro n ys
    have harith : n + (xs.length + 1) = n + 1 + xs.length := by omega
    simp [paraIdsFrom, ih (n + 1) ys, harith, and_assoc]

theorem mkParas_idsFrom (url : String) (pid : Option String) (sid : String) :
    ∀ (pc : Nat) (ps : List (List Char)),
      paraIdsFrom url pc (mkParas url pid sid pc ps) := by
  intro pc ps
  induction ps generalizing pc with
  | nil => simp [mkParas, paraIdsFrom]
  | cons p ps ih => exact ⟨rfl, ih (pc + 1)⟩

/-- The concatenated paragraph records of the groups starting at
paragraph counter `pc` are numbered `pc+1`, `pc+2`, ... in emission
order. -/
theorem segGroups_idsFrom (url : String) (pid : Option String) :
    ∀ (ts : List (List Char)) (sc pc : Nat),
      paraIdsFrom url pc (((segGroups url pid sc pc ts).map Prod.snd).flatten) := by
  intro ts
  induction ts with
  | nil => intro sc pc; simp [segGroups, paraIdsFrom]
  | cons t ts ih =>
    intro sc pc
    by_cases h : t.length < 30
    · simpa [segGroups, h] using ih sc pc
    · by_cases hk : (admittedParas t).isEmpty
      · simpa [segGroups, h, hk] using ih (sc + 1) pc
      · have hs : segGroups url pid sc pc (t :: ts) =
            ({ id := sectionIdOf url (sc + 1) t, page_id := pid,
               title := String.mk (sectionTitleOf t), url := url,
               paragraph_count := (admittedParas t).length },
             mkParas url pid (sectionIdOf url (sc + 1) t) pc (admittedParas t)) ::
              segGroups url pid (sc + 1) (pc + (admittedParas t).length) ts := by
          simp [segGroups, h, hk]
        rw [hs, List.map_cons, List.flatten_cons, paraIdsFrom_append]
        refine ⟨mkParas_idsFrom url pid _ pc _, ?_⟩
        rw [mkParas_length]
        exact ih (sc + 1) (pc + (admittedParas t).length)

/-- Structural facts about every group the section loop emits: the
paragraph count matches the paragraph records, is positive, all records
reference the section, the title is at most 50 characters, and the
section id is content-addressed from the URL, a section ordinal in range,
and the title. -/
theorem segGroups_mem (url : String) (pid : Option String) :
    ∀ (ts : List (List Char)) (sc pc : Nat) (g : SectionData × List ParagraphData),
      g ∈ segGroups url pid sc pc ts →
      g.1.paragraph_count = g.2.length ∧ g.2 ≠ [] ∧ g.1.page_id = pid ∧
      g.1.url = url ∧ g.1.title.data.length ≤ 50 ∧
      (∃ n, sc < n ∧ n ≤ sc + gateCount ts ∧
        g.1.id = _generate_id (url ++ "#" ++ toString n ++ "#" ++ g.1.title)) ∧
      (∀ p ∈ g.2, p.section_id = g.1.id ∧ p.page_id = pid) := by
  intro ts
  induction ts with
  | nil => intro sc pc g hg; simp [segGroups] at hg
  | cons t ts ih =>
    intro sc pc g hg
    by_cases h : t.length < 30
    · rw [show segGroups url pid sc pc (t :: ts) = segGroups url pid sc pc ts from by
        simp [segGroups, h]] at hg
      obtain ⟨h1, h2, h3, h4, h5, ⟨n, hn1, hn2, hn3⟩, h7⟩ := ih sc pc g hg
      have hgc : gateCount (t :: ts) = gateCount ts := by simp [gateCount, h]
      exact ⟨h1, h2, h3, h4, h5, ⟨n, hn1, by omega, hn3⟩, h7⟩
    · have hgc : gateCount (t :: ts) = 1 + gateCount ts := by simp [gateCount, h]
      by_cases hk : (admittedParas t).isEmpty
      · rw [show segGroups url pid sc pc (t :: ts) = segGroups url pid (sc + 1) pc ts from by
          simp [segGroups, h, hk]] at hg
        obtain ⟨h1, h2, h3, h4, h5, ⟨n, hn1, hn2, hn3⟩, h7⟩ := ih (sc + 1) pc g hg
        exact ⟨h1, h2, h3, h4, h5, ⟨n, by omega, by omega, hn3⟩, h7⟩
      · rw [show segGroups url pid sc pc (t :: ts) =
            ({ id := sectionIdOf url (sc + 1) t, page_id := pid,
               title := String.mk (sectionTitleOf t), url := url,
               paragraph_count := (admittedParas t).length },
             mkParas url pid (sectionIdOf url (sc + 1) t) pc (admittedParas t)) ::
              segGroups url pid (sc + 1) (pc + (admittedParas t).length) ts from by
          simp [segGroups, h, hk]] at hg
        rcases List.mem_cons.mp hg with rfl | hgs
        · have hne : admittedParas t ≠ [] := by
            simpa [List.isEmpty_iff] using hk
          have hpos : 0 < (mkParas url pid (sectionIdOf url (sc + 1) t) pc
              (admittedParas t)).length := by
            rw [mkParas_length]
            exact List.length_pos.mpr hne
          refine ⟨(mkParas_length url pid _ pc _).symm, ?_, rfl, rfl, ?_, ?_, ?_⟩
          · exact List.ne_nil_of_length_pos hpos
          · simp [sectionTitleOf]
          · exact ⟨sc + 1, Nat.lt_succ_self sc, by omega, rfl⟩
          · intro p hp
            exact mkParas_mem url pid _ pc _ p hp
        · obtain ⟨h1, h2, h3, h4, h5, ⟨n, hn1, hn2, hn3⟩, h7⟩ :=
            ih (sc + 1) (pc + (admittedParas t).length) g hgs
          exact ⟨h1, h2, h3, h4, h5, ⟨n, by omega, by omega, hn3⟩, h7⟩

/-- Counting paragraphs by section id: when the emitted section ids are
pairwise distinct, filtering all paragraph records by one group's section
id recovers exactly that group's paragraphs. -/
theorem groups_count :
    ∀ (gs : List (SectionData × List ParagraphData)),
      (∀ g ∈ gs, ∀ p ∈ g.2, p.section_id = g.1.id) →
      (gs.map (fun g => g.1.id)).Nodup →
      ∀ g ∈ gs,
        (((gs.map Prod.snd).flatten).filter
          (fun p => p.section_id == g.1.id)).length = g.2.length := by
  intro gs
  induction gs with
  | nil => intro _ _ g hg; simp at hg
  | cons a gs ih =>
    intro hsec hnd g hg
    rw [List.map_cons, List.flatten_cons, List.filter_append, List.length_append]
    rw [List.map_cons, List.nodup_cons] at hnd
    obtain ⟨hna, hnd2⟩ := hnd
    rcases List.mem_cons.mp hg with rfl | hgs
    · have h1 : g.2.filter (fun p => p.section_id == g.1.id) = g.2 :=
        List.filter_eq_self.mpr (fun p hp => by
          simp [hsec g (List.mem_cons_self g gs) p hp])
      have h2 : ((gs.map Prod.snd).flatten).filter
          (fun p => p.section_id == g.1.id) = [] := by
        rw [List.filter_eq_nil_iff]
        intro p hp
        obtain ⟨l, hl, hpl⟩ := List.mem_flatten.mp hp
        obtain ⟨g2, hg2, rfl⟩ := List.mem_map.mp hl
        have hps := hsec g2 (List.mem_cons_of_mem _ hg2) p hpl
        have hmem : g2.1.id ∈ gs.map (fun g => g.1.id) :=
          List.mem_map_of_mem _ hg2
        have hne : p.section_id ≠ g.1.id := by
          rw [hps]; exact fun he => hna (he ▸ hmem)
        simp [hne]
      rw [h1, h2]; simp
    · have h2 : a.2.filter (fun p => p.section_id == g.1.id) = [] := by
        rw [List.filter_eq_nil_iff]
        intro p hp
        have hps := hsec a (List.mem_cons_self a gs) p hp
        have hmem : g.1.id ∈ gs.map (fun g => g.1.id) :=
          List.mem_map_of_mem _ hgs
        have hne : p.section_id ≠ g.1.id := by
          rw [hps]; exact fun he => hna (he ▸ hmem)
        simp [hne]
      rw [h2]
      simp only [List.length_nil, Nat.zero_add]
      exact ih (fun g2 hg2 => hsec g2 (List.mem_cons_of_mem _ hg2)) hnd2 g hgs

/-- Whole-page output when the 100-character gate rejects the content. -/
theorem segmentContent_short (url : String) (pid : Option String)
    (content : List Char) (h : content.length < 100) :
    segmentContent url pid content = ([], []) := by
  simp [segmentContent, h]

/-- The segmenter output, described through the groups, when the content
passes the 100-character gate. -/
theorem extract_eq_groups (url text : String) (pid : Option String)
    (h : ((normalizeText text.data).isEmpty ||
      decide ((normalizeText text.data).length < 100)) = false) :
    _extract_sections_and_paragraphs url text pid =
      ((segGroups url pid 0 0 (pySplit ['\n', '\n'] (normalizeText text.data))).map
        Prod.fst,
       ((segGroups url pid 0 0 (pySplit ['\n', '\n'] (normalizeText text.data))).map
        Prod.snd).flatten) := by
  simp only [_extract_sections_and_paragraphs, segmentContent, h,
    Bool.false_eq_true, if_false, runSections]
  rw [segFold_eq]
  simp

/-- The page-global paragraph counter advances by exactly the number of
paragraph records emitted. -/
theorem segGroups_flatten_length (url : String) (pid : Option String) :
    ∀ (ts : List (List Char)) (sc pc : Nat),
      (((segGroups url pid sc pc ts).map Prod.snd).flatten).length =
        admitTotal ts := by
  intro ts
  induction ts with
  | nil => intro sc pc; simp [segGroups, admitTotal]
  | cons t ts ih =>
    intro sc pc
    by_cases h : t.length < 30
    · simpa [segGroups, admitTotal, h] using ih sc pc
    · by_cases hk : (admittedParas t).isEmpty
      · have hl : (admittedParas t).length = 0 := by
          simpa [List.isEmpty_iff] using hk
        simpa [segGroups, admitTotal, h, hk, hl] using ih (sc + 1) pc
      · have hs : segGroups url pid sc pc (t :: ts) =
            ({ id := sectionIdOf url (sc + 1) t, page_id := pid,
               title := String.mk (sectionTitleOf t), url := url,
               paragraph_count := (admittedParas t).length },
             mkParas url pid (sectionIdOf url (sc + 1) t) pc (admittedParas t)) ::
              segGroups url pid (sc + 1) (pc + (admittedParas t).length) ts := by
          simp [segGroups, h, hk]
        rw [hs]
        simp only [List.map_cons, List.flatten_cons, List.length_append,
          mkParas_length, admitTotal, h, if_false]
        rw [ih (sc + 1) (pc + (admittedParas t).length)]

/-- List.dropWhile never lengthens a list. -/
theorem dropWhile_length_le_self (p : Char → Bool) :
    ∀ (l : List Char), (l.dropWhile p).length ≤ l.length := by
  intro l
  induction l with
  | nil => simp
  | cons a l ih =>
    rw [List.dropWhile_cons]
    by_cases h : p a
    · simp only [h, if_true]
      exact le_trans ih (Nat.le_succ _)
    · simp [h]

/-- Stripping never lengthens a string. -/
theorem pyStrip_length_le (s : List Char) : (pyStrip s).length ≤ s.length := by
  have h1 := dropWhile_length_le_self isPySpace s
  have h2 := dropWhile_length_le_self isPySpace (s.dropWhile isPySpace).reverse
  simp only [List.length_reverse] at h1 h2
  simp only [pyStrip, List.length_reverse]
  exact le_trans h2 h1

/-- Every element of a list is bounded by `maxLen`. -/
theorem le_maxLen : ∀ (l : List (List Char)) (p : List Char),
    p ∈ l → p.length ≤ maxLen l := by
  intro l
  induction l with
  | nil => intro p hp; simp at hp
  | cons a l ih =>
    intro p hp
    rcases List.mem_cons.mp hp with rfl | h
    · exact le_max_left _ _
    · exact le_trans (ih p h) (le_max_right _ _)

/-- Invariant of the greedy accumulation: if every remaining fragment,
the running group and every emitted group are bounded by `B ≥ 202`, the
same holds after folding; the bound 202 covers the two-character ".ꞏ"
separator the length check does not count. -/
theorem greedyFold_bound (B : Nat) (h202 : 202 ≤ B) :
    ∀ (parts : List (List Char)) (cur : List Char) (acc : List (List Char)),
      (∀ p ∈ parts, p.length ≤ B) → cur.length ≤ B →
      (∀ c ∈ acc, c.length ≤ B) →
      (∀ c ∈ (parts.foldl greedyAccum (cur, acc)).2, c.length ≤ B) ∧
      (parts.foldl greedyAccum (cur, acc)).1.length ≤ B := by
  intro parts
  induction parts with
  | nil => intro cur acc hparts hcur hacc; exact ⟨hacc, hcur⟩
  | cons p ps ih =>
    intro cur acc hparts hcur hacc
    have hp : p.length ≤ B := hparts p (List.mem_cons_self p ps)
    have hps : ∀ q ∈ ps, q.length ≤ B :=
      fun q hq => hparts q (List.mem_cons_of_mem p hq)
    rw [List.foldl_cons]
    by_cases hover : 200 < cur.length + p.length
    · rw [show greedyAccum (cur, acc) p =
          (p, if cur.isEmpty then acc else acc ++ [pyStrip cur]) from by
        simp [greedyAccum, hover]]
      refine ih p _ hps hp ?_
      intro c hc
      by_cases hce : cur.isEmpty
      · rw [if_pos hce] at hc; exact hacc c hc
      · rw [if_neg hce] at hc
        rcases List.mem_append.mp hc with h1 | h1
        · exact hacc c h1
        · have : c = pyStrip cur := by simpa using h1
          subst this
          exact le_trans (pyStrip_length_le cur) hcur
    · rw [show greedyAccum (cur, acc) p =
          ((if cur.isEmpty then p else cur ++ '.' :: ' ' :: p), acc) from by
        simp [greedyAccum, hover]]
      refine ih _ acc hps ?_ hacc
      by_cases hce : cur.isEmpty
      · rw [if_pos hce]; exact hp
      · rw [if_neg hce]
        simp only [List.length_append, List.length_cons]
        omega

/-! ### Lemmas: the status-poll loop -/

/-- The poll loop, fully described by the index of the first completed
check. -/
theorem pollFrom_eq (statusAt : Nat → Option String) :
    ∀ (fuel a : Nat),
      pollFrom statusAt fuel a =
        match firstCompleteIdx statusAt fuel a with
        | some i => (true, i + 1, i)
        | none => (false, fuel, fuel - 1) := by
  intro fuel
  induction fuel with
  | zero => intro a; rfl
  | succ fuel ih =>
    intro a
    by_cases h : statusAt a = some "complete"
    · simp [pollFrom, firstCompleteIdx, h]
    · simp only [pollFrom, firstCompleteIdx, h, if_false]
      rw [ih (a + 1)]
      cases hfi : firstCompleteIdx statusAt fuel (a + 1) with
      | some i =>
        have hf : 0 < fuel := by
          rcases Nat.eq_zero_or_pos fuel with rfl | hf
          · simp [firstCompleteIdx] at hfi
          · exact hf
        simp only [hfi, Option.map_some, hf, if_pos]
        refine Prod.ext rfl (Prod.ext rfl ?_)
        simp
        omega
      | none =>
        rcases Nat.eq_zero_or_pos fuel with rfl | hf
        · simp [hfi]
        · have h1 : (if 0 < fuel then 1 else 0) = 1 := if_pos hf
          simp [hfi, h1]
          omega

/-- No check within the budget reports complete iff the first-complete
index does not exist. -/
theorem firstCompleteIdx_none (statusAt : Nat → Option String) :
    ∀ (fuel a : Nat),
      firstCompleteIdx statusAt fuel a = none ↔
        ∀ i < fuel, statusAt (a + i) ≠ some "complete" := by
  intro fuel
  induction fuel with
  | zero => intro a; simp [firstCompleteIdx]
  | succ fuel ih =>
    intro a
    by_cases h : statusAt a = some "complete"
    · constructor
      · intro hc; simp [firstCompleteIdx, h] at hc
      · intro hall
        exact absurd h (by simpa using hall 0 (Nat.succ_pos fuel))
    · simp only [firstCompleteIdx, h, if_false, Option.map_eq_none']
      rw [ih (a + 1)]
      constructor
      · intro hall i hi hc
        rcases Nat.eq_zero_or_pos i with rfl | hipos
        · exact h (by simpa using hc)
        · refine hall (i - 1) (by omega) ?_
          have : a + 1 + (i - 1) = a + i := by omega
          rw [this]; exact hc
      · intro hall i hi hc
        refine hall (i + 1) (by omega) ?_
        have : a + (i + 1) = a + 1 + i := by omega
        rw [this]; exact hc

/-- The first-complete index points at a completed check inside the
budget, with no earlier completed check. -/
theorem firstCompleteIdx_some (statusAt : Nat → Option String) :
    ∀ (fuel a i : Nat), firstCompleteIdx statusAt fuel a = some i →
      i < fuel ∧ statusAt (a + i) = some "complete" ∧
      ∀ j < i, statusAt (a + j) ≠ some "complete" := by
  intro fuel
  induction fuel with
  | zero => intro a i hc; simp [firstCompleteIdx] at hc
  | succ fuel ih =>
    intro a i hc
    by_cases h : statusAt a = some "complete"
    · simp [firstCompleteIdx, h] at hc
      subst hc
      exact ⟨Nat.succ_pos fuel, by simpa using h, by omega⟩
    · simp only [firstCompleteIdx, h, if_false, Option.map_eq_some'] at hc
      obtain ⟨k, hk, rfl⟩ := hc
      obtain ⟨h1, h2, h3⟩ := ih (a + 1) k hk
      refine ⟨by omega, by rwa [show a + (k + 1) = a + 1 + k by omega], ?_⟩
      intro j hj
      rcases Nat.eq_zero_or_pos j with rfl | hjpos
      · simpa using h
      · have := h3 (j - 1) (by omega)
        rwa [show a + 1 + (j - 1) = a + j by omega] at this

/-- Converse: a completed check with no earlier completed check is the
first-complete index. -/
theorem firstCompleteIdx_intro (statusAt : Nat → Option String) :
    ∀ (fuel a i : Nat), i < fuel → statusAt (a + i) = some "complete" →
      (∀ j < i, statusAt (a + j) ≠ some "complete") →
      firstCompleteIdx statusAt fuel a = some i := by
  intro fuel
  induction fuel with
  | zero => intro a i hi; omega
  | succ fuel ih =>
    intro a i hi hc hmin
    rcases Nat.eq_zero_or_pos i with rfl | hipos
    · have hc0 : statusAt a = some "complete" := by simpa using hc
      simp [firstCompleteIdx, hc0]
    · have h0 : statusAt a ≠ some "complete" := by
        simpa using hmin 0 hipos
      simp only [firstCompleteIdx, h0, if_false]
      have hrec : firstCompleteIdx statusAt fuel (a + 1) = some (i - 1) := by
        refine ih (a + 1) (i - 1) (by omega) ?_ ?_
        · rwa [show a + 1 + (i - 1) = a + i by omega]
        · intro j hj
          have := hmin (j + 1) (by omega)
          rwa [show a + (j + 1) = a + 1 + j by omega] at this
      rw [hrec, Option.map_some']
      congr 1
      omega

/-! ### The claims -/

/-- C2: admission thresholds hold at every level of scrape.py: a page
whose normalized content is shorter than 50 characters yields no Page
record while one of exactly 50 is admitted; a candidate section shorter
than 30 characters is discarded while one of exactly 30 passes the gate
(its counter increments); a paragraph candidate whose stripped length is
at most 20 is discarded while one of exactly 21 is admitted; and the
segmenter contributes zero sections and paragraphs when the normalized
page content is shorter than 100 characters. -/
theorem claim_C2 :
    (∀ (url title text : String), (normalizeText text.data).length < 50 →
      _extract_page_content url title text = none) ∧
    (∀ (url title text : String), (normalizeText text.data).length = 50 →
      _extract_page_content url title text =
        some { id := _generate_id url, title := title, url := url,
               content := String.mk (normalizeText text.data),
               character_count := (normalizeText text.data).length }) ∧
    (∀ (url : String) (pid : Option String) (st : SegState) (t : List Char),
      t.length < 30 → processSection url pid st t = st) ∧
    (∀ (url : String) (pid : Option String) (st : SegState) (t : List Char),
      t.length = 30 →
      (processSection url pid st t).section_counter = st.section_counter + 1) ∧
    (∀ (url : String) (pid : Option String) (sid : String)
       (st : Nat × Nat × List ParagraphData) (p : List Char),
      (pyStrip p).length ≤ 20 → paraStep url pid sid st p = st) ∧
    (∀ (url : String) (pid : Option String) (sid : String)
       (st : Nat × Nat × List ParagraphData) (p : List Char),
      (pyStrip p).length = 21 →
      paraStep url pid sid st p =
        (st.1 + 1, st.2.1 + 1,
         st.2.2 ++ [mkPara url pid sid (st.1 + 1) (pyStrip p)])) ∧
    (∀ (url text : String) (pid : Option String),
      (normalizeText text.data).length < 100 →
      _extract_sections_and_paragraphs url text pid = ([], [])) := by
  refine ⟨?_, ?_, ?_, ?_, ?_, ?_, ?_⟩
  · intro url title text h
    simp [_extract_page_content, h]
  · intro url title text h
    have hne : normalizeText text.data ≠ [] := by
      intro hc; rw [hc] at h; simp at h
    have hemp : (normalizeText text.data).isEmpty = false := by
      simpa [List.isEmpty_iff] using hne
    simp [_extract_page_content, hemp, h]
  · intro url pid st t h
    exact processSection_skip url pid st t h
  · intro url pid st t h
    have h30 : ¬ t.length < 30 := by omega
    obtain ⟨sc, pc, secs, paras⟩ := st
    by_cases hk : admittedParas t = []
    · rw [processSection_zero url pid sc pc secs paras t h30 hk]
    · rw [processSection_pos url pid sc pc secs paras t h30 hk]
  · intro url pid sid st p h
    exact paraStep_skip url pid sid st p h
  · intro url pid sid st p h
    exact paraStep_keep url pid sid st p (by omega)
  · intro url text pid h
    simp [_extract_sections_and_paragraphs, segmentContent, h]

/-- Witness for C2 at the boundary inputs 49/50, 29/30, 20/21 and 99. -/
theorem claim_C2_witness :
    _extract_page_content "u" "t" (String.mk (List.replicate 49 'a')) = none ∧
    _extract_page_content "u" "t" (String.mk (List.replicate 50 'a')) =
      some { id := _generate_id "u", title := "t", url := "u",
             content := String.mk (normalizeText
               (String.mk (List.replicate 50 'a')).data),
             character_count :=
               (normalizeText (String.mk (List.replicate 50 'a')).data).length } ∧
    processSection "u" none ⟨0, 0, [], []⟩ (List.replicate 29 'a') =
      ⟨0, 0, [], []⟩ ∧
    (processSection "u" none ⟨0, 0, [], []⟩ (List.replicate 30 'a')).section_counter =
      1 ∧
    paraStep "u" none "s" (0, 0, []) (List.replicate 20 'a') = (0, 0, []) ∧
    paraStep "u" none "s" (0, 0, []) (List.replicate 21 'a') =
      (1, 1, [mkPara "u" none "s" 1 (pyStrip (List.replicate 21 'a'))]) ∧
    _extract_sections_and_paragraphs "u" (String.mk (List.replicate 99 'a')) none =
      ([], []) :=
  ⟨claim_C2.1 "u" "t" _ (by decide),
   claim_C2.2.1 "u" "t" _ (by decide),
   claim_C2.2.2.1 "u" none _ _ (by decide),
   claim_C2.2.2.2.1 "u" none _ _ (by decide),
   claim_C2.2.2.2.2.1 "u" none "s" _ _ (by decide),
   claim_C2.2.2.2.2.2.1 "u" none "s" _ _ (by decide),
   claim_C2.2.2.2.2.2.2 "u" _ none (by decide)⟩

/-- C3 as stated is false on the code: a newline-free section consisting
of a single 250-character fragment (no ".ꞏ" boundary) is emitted as one
paragraph candidate of length 250, exceeding the claimed 200-character
ceiling. -/
theorem claim_C3_counterexample :
    w3sec.contains '\n' = false ∧
    (buildParaCandidates w3sec).any (fun c => decide (200 < c.length)) = true := by
  constructor
  · decide
  · decide

/-- C3 amended: for a section with no internal newlines the grouping step
splits on ".ꞏ" and accumulates greedily, emitting the running group when
the length check `len(current) + len(next) > 200` fires; since the check
ignores the re-inserted two-character separator and a single oversized
fragment is passed through whole, emitted candidates are bounded by
max 202 (longest fragment), not by 200. -/
theorem claim_C3_amended (t : List Char) (h : t.contains '\n' = false) :
    ∀ c ∈ buildParaCandidates t,
      c.length ≤ max 202 (maxLen (pySplit ['.', ' '] t)) := by
  intro c hc
  simp only [buildParaCandidates, h, Bool.false_eq_true, if_false] at hc
  have hbound := greedyFold_bound (max 202 (maxLen (pySplit ['.', ' '] t)))
    (le_max_left _ _) (pySplit ['.', ' '] t) [] []
    (fun p hp => le_trans (le_maxLen _ p hp) (le_max_right _ _))
    (by simp) (by simp)
  rcases List.mem_append.mp hc with h1 | h2
  · exact hbound.1 c h1
  · by_cases hce : ((pySplit ['.', ' '] t).foldl greedyAccum ([], [])).1.isEmpty
    · rw [if_pos hce] at h2
      simp at h2
    · rw [if_neg hce] at h2
      have hc2 : c = pyStrip ((pySplit ['.', ' '] t).foldl greedyAccum ([], [])).1 := by
        simpa using h2
      rw [hc2]
      exact le_trans (pyStrip_length_le _) hbound.2

/-- Witness for the amended C3: the 250-character fragment is emitted and
satisfies the corrected bound. -/
theorem claim_C3_witness :
    w3sec.length ≤ max 202 (maxLen (pySplit ['.', ' '] w3sec)) :=
  claim_C3_amended w3sec (by decide) w3sec (by decide)

/-- C9: the continuous status poll performs at most 60 checks with a
5-second sleep between consecutive checks (always exactly checks - 1
sleeps), returns success exactly when some check within the budget
reports status complete — stopping right at the first such check — and
when the budget is exhausted without completion it returns the failure
triple (false, 60 checks, 59 sleeps) instead of raising. -/
theorem claim_C9 (statusAt : Nat → Option String) :
    (check_status_continuous statusAt 60).2.1 ≤ 60 ∧
    (check_status_continuous statusAt 60).2.2 + 1 =
      (check_status_continuous statusAt 60).2.1 ∧
    ((check_status_continuous statusAt 60).1 = true ↔
      ∃ i, i < 60 ∧ statusAt i = some "complete") ∧
    (∀ i, i < 60 → statusAt i = some "complete" →
      (∀ j, j < i → statusAt j ≠ some "complete") →
      check_status_continuous statusAt 60 = (true, i + 1, i)) ∧
    ((∀ i, i < 60 → statusAt i ≠ some "complete") →
      check_status_continuous statusAt 60 = (false, 60, 59)) := by
  have hcc0 : check_status_continuous statusAt 60 =
      match firstCompleteIdx statusAt 60 0 with
      | some i => (true, i + 1, i)
      | none => (false, 60, 60 - 1) := pollFrom_eq statusAt 60 0
  refine ⟨?_, ?_, ?_, ?_, ?_⟩
  · rw [hcc0]
    cases hfi : firstCompleteIdx statusAt 60 0 with
    | some i =>
      obtain ⟨hlt, _, _⟩ := firstCompleteIdx_some statusAt 60 0 i hfi
      simp only []
      omega
    | none => simp
  · rw [hcc0]
    cases hfi : firstCompleteIdx statusAt 60 0 with
    | some i => simp
    | none => simp
  · rw [hcc0]
    cases hfi : firstCompleteIdx statusAt 60 0 with
    | some i =>
      obtain ⟨hlt, hc, _⟩ := firstCompleteIdx_some statusAt 60 0 i hfi
      simp only [Nat.zero_add] at hc
      simp only [true_iff]
      exact ⟨i, hlt, hc⟩
    | none =>
      have hall := (firstCompleteIdx_none statusAt 60 0).mp hfi
      simp only [Bool.false_eq_true, false_iff]
      rintro ⟨i, hi, hic⟩
      exact hall i hi (by simpa using hic)
  · intro i hi hic hmin
    have hfx : firstCompleteIdx statusAt 60 0 = some i := by
      refine firstCompleteIdx_intro statusAt 60 0 i hi ?_ ?_
      · simpa using hic
      · intro j hj
        simpa using hmin j hj
    rw [hcc0, hfx]
  · intro hall
    have hfe : firstCompleteIdx statusAt 60 0 = none := by
      refine (firstCompleteIdx_none statusAt 60 0).mpr ?_
      intro i hi
      simpa using hall i hi
    rw [hcc0, hfe]

/-- Witness for C9: with completion reported on the third check, the
poll returns success after exactly 3 checks and 2 sleeps. -/
theorem claim_C9_witness :
    check_status_continuous w9status 60 = (true, 3, 2) :=
  (claim_C9 w9status).2.2.2.1 2 (by omega) (by decide) (by decide)

/-- C6 as stated is false on the code: with max_pages = 1, a seed page
whose extracted content is below the 50-character admission threshold
produces zero Page records, not exactly one. -/
theorem claim_C6_counterexample :
    (crawlSite w6fetch 1 2 "https://seed").pages.length = 0 ∧
    ¬ (crawlSite w6fetch 1 2 "https://seed").pages.length = 1 := by
  constructor
  · decide
  · decide

/-- C6 amended: with max_depth = 0 only the seed URL is ever fetched
(`_scrape_page` follows no links); with max_pages = 1 at most one Page
record is produced regardless of discovered links, and exactly one
precisely when the seed fetch succeeds and its content passes the
50-character page admission. -/
theorem claim_C6_amended (fetch : String → Option (String × String))
    (seed : String) (max_pages : Nat) :
    ((crawlSite fetch max_pages 0 seed).fetched = [] ∨
     (crawlSite fetch max_pages 0 seed).fetched = [seed]) ∧
    (∀ max_depth : Nat, (crawlSite fetch 1 max_depth seed).pages.length ≤ 1) ∧
    (∀ max_depth : Nat,
      ((crawlSite fetch 1 max_depth seed).pages.length = 1 ↔
       ∃ title text, fetch seed = some (title, text) ∧
         _extract_page_content seed title text ≠ none)) := by
  refine ⟨?_, ?_, ?_⟩
  · rcases Nat.eq_zero_or_pos max_pages with rfl | hmp
    · left
      simp [crawlSite, _scrape_page]
    · right
      have hg : ¬ max_pages ≤ 0 := by omega
      cases hf : fetch seed with
      | none => simp [crawlSite, _scrape_page, hg, hf]
      | some pr =>
        cases hpc : _extract_page_content seed pr.1 pr.2 with
        | none => simp [crawlSite, _scrape_page, hg, hf, hpc]
        | some pd => simp [crawlSite, _scrape_page, hg, hf, hpc]
  · intro max_depth
    cases hf : fetch seed with
    | none => simp [crawlSite, _scrape_page, hf]
    | some pr =>
      cases hpc : _extract_page_content seed pr.1 pr.2 with
      | none => simp [crawlSite, _scrape_page, hf, hpc]
      | some pd => simp [crawlSite, _scrape_page, hf, hpc]
  · intro max_depth
    cases hf : fetch seed with
    | none =>
      constructor
      · intro hcon
        simp [crawlSite, _scrape_page, hf] at hcon
      · rintro ⟨t1, t2, heq, _⟩
        exact absurd heq (by simp)
    | some pr =>
      cases hpc : _extract_page_content seed pr.1 pr.2 with
      | none =>
        constructor
        · intro hcon
          simp [crawlSite, _scrape_page, hf, hpc] at hcon
        · rintro ⟨t1, t2, heq, hne⟩
          have hpr := Option.some.inj heq
          rw [hpr] at hpc
          exact absurd hpc hne
      | some pd =>
        constructor
        · intro _
          exact ⟨pr.1, pr.2, rfl, by simp [hpc]⟩
        · intro _
          simp [crawlSite, _scrape_page, hf, hpc]

/-- Witness for the amended C6: a fetch returning 113 characters of
content yields exactly one Page and only the seed is fetched. -/
theorem claim_C6_witness :
    ((crawlSite (fun _ => some ("T", w1text)) 7 0 "s").fetched = [] ∨
     (crawlSite (fun _ => some ("T", w1text)) 7 0 "s").fetched = ["s"]) ∧
    (crawlSite (fun _ => some ("T", w1text)) 1 2 "s").pages.length ≤ 1 ∧
    ((crawlSite (fun _ => some ("T", w1text)) 1 2 "s").pages.length = 1 ↔
      ∃ title text, (fun (_ : String) => some ("T", w1text)) "s" = some (title, text) ∧
        _extract_page_content "s" title text ≠ none) :=
  ⟨(claim_C6_amended (fun _ => some ("T", w1text)) "s" 7).1,
   (claim_C6_amended (fun _ => some ("T", w1text)) "s" 7).2.1 2,
   (claim_C6_amended (fun _ => some ("T", w1text)) "s" 7).2.2 2⟩

/-- C7 as stated is false on the code: a response carrying a ranked
result with score 49 but count 0 is reported as "no information found"
(the empty-result check fires first), not as "low relevance". -/
theorem claim_C7_counterexample :
    w7sdA.score = 49 ∧
    search_and_display (some w7sdA) (fun _ => none) = ChatResult.noInfoFound ∧
    ¬ search_and_display (some w7sdA) (fun _ => none) = ChatResult.lowRelevance := by
  refine ⟨rfl, rfl, by decide⟩

/-- C7 amended: the empty-result check precedes the score check — any
response with no results or count 0 (whatever its score, including 49)
reports "no information found"; a response passing the empty-result
check with score 49 reports "low relevance"; score 50 with count 0
reports "no information found"; all these outcomes return the failure
indicator False. -/
theorem claim_C7_amended (sd : SearchData) (llm : String → Option String) :
    ((sd.results = [] ∨ sd.count = 0) →
      search_and_display (some sd) llm = ChatResult.noInfoFound ∧
      chatReturns (search_and_display (some sd) llm) = false) ∧
    (sd.results ≠ [] → sd.count ≠ 0 → sd.score = 49 →
      search_and_display (some sd) llm = ChatResult.lowRelevance ∧
      chatReturns (search_and_display (some sd) llm) = false) ∧
    (sd.score = 50 → sd.count = 0 →
      search_and_display (some sd) llm = ChatResult.noInfoFound ∧
      chatReturns (search_and_display (some sd) llm) = false) := by
  refine ⟨?_, ?_, ?_⟩
  · intro h
    have hcond : (sd.results.isEmpty || sd.count == 0) = true := by
      rcases h with h | h
      · simp [h]
      · simp [h]
    constructor
    · simp [search_and_display, hcond]
    · simp [search_and_display, hcond, chatReturns]
  · intro h1 h2 h3
    have hcond : (sd.results.isEmpty || sd.count == 0) = false := by
      simp [List.isEmpty_iff, h1, h2]
    have hsc : sd.score < 50 := by
      rw [h3]
      norm_num
    constructor
    · simp [search_and_display, hcond, hsc]
    · simp [search_and_display, hcond, hsc, chatReturns]
  · intro h1 h2
    have hcond : (sd.results.isEmpty || sd.count == 0) = true := by simp [h2]
    constructor
    · simp [search_and_display, hcond]
    · simp [search_and_display, hcond, chatReturns]

/-- Witness for the amended C7 at the three concrete responses. -/
theorem claim_C7_witness :
    (search_and_display (some w7sdA) (fun _ => none) = ChatResult.noInfoFound ∧
     chatReturns (search_and_display (some w7sdA) (fun _ => none)) = false) ∧
    (search_and_display (some w7sdB) (fun _ => none) = ChatResult.lowRelevance ∧
     chatReturns (search_and_display (some w7sdB) (fun _ => none)) = false) ∧
    (search_and_display (some w7sdC) (fun _ => none) = ChatResult.noInfoFound ∧
     chatReturns (search_and_display (some w7sdC) (fun _ => none)) = false) :=
  ⟨(claim_C7_amended w7sdA (fun _ => none)).1 (Or.inr rfl),
   (claim_C7_amended w7sdB (fun _ => none)).2.1 (by decide) (by decide) rfl,
   (claim_C7_amended w7sdC (fun _ => none)).2.2 rfl rfl⟩

/-- C8: when the search response passes the empty-result and score
checks, the retrieved context is non-empty, and the LLM call yields no
usable response (failure or empty string), the client displays the raw
context — exactly its first 1500 characters followed by the truncation
marker when longer than 1500 characters, the full context otherwise —
and still returns the success indicator True. -/
theorem claim_C8 (sd : SearchData) (llm : String → Option String)
    (h1 : sd.results ≠ []) (h2 : sd.count ≠ 0) (h3 : ¬ sd.score < 50)
    (h4 : llm (sd.text.getD "") = none ∨ llm (sd.text.getD "") = some "")
    (h5 : sd.text.getD "" ≠ "") :
    search_and_display (some sd) llm =
      ChatResult.answer
        (if 1500 < pyLen (sd.text.getD "") then
           pyTake (sd.text.getD "") 1500 ++ truncation_marker
         else sd.text.getD "") ∧
    chatReturns (search_and_display (some sd) llm) = true := by
  have hcond : (sd.results.isEmpty || sd.count == 0) = false := by
    simp [List.isEmpty_iff, h1, h2]
  cases htext : sd.text with
  | none =>
    rw [htext] at h5
    simp at h5
  | some t =>
    rw [htext] at h4 h5
    simp only [Option.getD_some] at h4 h5
    have hred : search_and_display (some sd) llm = fallbackDisplay t := by
      rcases h4 with h4 | h4
      · simp [search_and_display, hcond, htext, h5, h3, h4]
      · simp [search_and_display, hcond, htext, h5, h3, h4]
    rw [hred]
    simp only [Option.getD_some]
    by_cases hlong : 1500 < pyLen t
    · constructor
      · simp [fallbackDisplay, h5, hlong]
      · simp [fallbackDisplay, h5, hlong, chatReturns]
    · constructor
      · simp [fallbackDisplay, h5, hlong]
      · simp [fallbackDisplay, h5, hlong, chatReturns]

/-- Witness for C8: a 2000-character context with a failing LLM call is
displayed truncated to 1500 characters plus the marker, returning True. -/
theorem claim_C8_witness :
    search_and_display (some w8sd) (fun _ => none) =
      ChatResult.answer
        (if 1500 < pyLen (w8sd.text.getD "") then
           pyTake (w8sd.text.getD "") 1500 ++ truncation_marker
         else w8sd.text.getD "") ∧
    chatReturns (search_and_display (some w8sd) (fun _ => none)) = true :=
  claim_C8 w8sd (fun _ => none) (by decide) (by decide)
    (by rw [show w8sd.score = (99 : Rat) from rfl]; norm_num)
    (Or.inl rfl) (by decide)

/-- C1: for every page processed by the segmenter — under the assumption,
supplied by content-addressed hashing, that the persisted section ids are
pairwise distinct — a Section record is persisted iff at least one
paragraph was admitted from it: every persisted Section's
paragraph_count equals the number of admitted Paragraph records carrying
that section's id (hence is at least 1), and conversely every admitted
Paragraph carries the id of some persisted Section. -/
theorem claim_C1 (url text : String) (page_id : Option String)
    (hnodup : (((_extract_sections_and_paragraphs url text page_id).1).map
      (fun s => s.id)).Nodup) :
    (∀ s ∈ (_extract_sections_and_paragraphs url text page_id).1,
      s.paragraph_count =
        (((_extract_sections_and_paragraphs url text page_id).2).filter
          (fun p => p.section_id == s.id)).length ∧
      1 ≤ s.paragraph_count) ∧
    (∀ p ∈ (_extract_sections_and_paragraphs url text page_id).2,
      ∃ s ∈ (_extract_sections_and_paragraphs url text page_id).1,
        s.id = p.section_id) := by
  by_cases hcond : ((normalizeText text.data).isEmpty ||
      decide ((normalizeText text.data).length < 100)) = true
  · have he : _extract_sections_and_paragraphs url text page_id = ([], []) := by
      simp only [_extract_sections_and_paragraphs, segmentContent]
      rw [if_pos hcond]
    rw [he]
    constructor
    · intro s hs
      simp at hs
    · intro p hp
      simp at hp
  · have hx := extract_eq_groups url text page_id (eq_false_of_ne_true hcond)
    have hx1 : (_extract_sections_and_paragraphs url text page_id).1 =
        (segGroups url page_id 0 0
          (pySplit ['\n', '\n'] (normalizeText text.data))).map Prod.fst := by
      rw [hx]
    have hx2 : (_extract_sections_and_paragraphs url text page_id).2 =
        ((segGroups url page_id 0 0
          (pySplit ['\n', '\n'] (normalizeText text.data))).map Prod.snd).flatten := by
      rw [hx]
    rw [hx1] at hnodup
    rw [hx1, hx2]
    have hsec : ∀ g ∈ segGroups url page_id 0 0
        (pySplit ['\n', '\n'] (normalizeText text.data)),
        ∀ p ∈ g.2, p.section_id = g.1.id := by
      intro g hg p hp
      exact ((segGroups_mem url page_id _ 0 0 g hg).2.2.2.2.2.2 p hp).1
    have hnd : ((segGroups url page_id 0 0
        (pySplit ['\n', '\n'] (normalizeText text.data))).map
          (fun g => g.1.id)).Nodup := by
      rw [List.map_map] at hnodup
      exact hnodup
    constructor
    · intro s hs
      obtain ⟨g, hgmem, rfl⟩ := List.mem_map.mp hs
      obtain ⟨hpc, hne, _, _, _, _, _⟩ := segGroups_mem url page_id _ 0 0 g hgmem
      refine ⟨?_, ?_⟩
      · rw [hpc]
        exact (groups_count _ hsec hnd g hgmem).symm
      · rw [hpc]
        exact List.length_pos.mpr hne
    · intro p hp
      obtain ⟨l, hl, hpl⟩ := List.mem_flatten.mp hp
      obtain ⟨g, hgmem, rfl⟩ := List.mem_map.mp hl
      exact ⟨g.1, List.mem_map_of_mem _ hgmem,
        ((segGroups_mem url page_id _ 0 0 g hgmem).2.2.2.2.2.2 p hpl).1.symm⟩

/-- Witness for C1 on a 113-character three-line page: one persisted
section, three paragraphs carrying its id. -/
theorem claim_C1_witness :
    (∀ s ∈ (_extract_sections_and_paragraphs "u" w1text none).1,
      s.paragraph_count =
        (((_extract_sections_and_paragraphs "u" w1text none).2).filter
          (fun p => p.section_id == s.id)).length ∧
      1 ≤ s.paragraph_count) ∧
    (∀ p ∈ (_extract_sections_and_paragraphs "u" w1text none).2,
      ∃ s ∈ (_extract_sections_and_paragraphs "u" w1text none).1,
        s.id = p.section_id) :=
  claim_C1 "u" w1text none (by decide)

/-- C4: over any run of the section loop, the section ordinal ends equal
to the number of candidates passing the 30-character gate — it is
incremented for every such candidate whether or not the section is later
persisted, so persisted ordinals need not be dense — while the paragraph
ordinal is page-global and increments only on admission: it ends equal to
the number of emitted paragraph records, which are numbered consecutively
1, 2, ... across all sections of the page; each persisted section id
embeds an ordinal in gate range together with the section title. -/
theorem claim_C4 (url : String) (pid : Option String) (ts : List (List Char)) :
    (runSections url pid ts).section_counter = gateCount ts ∧
    (runSections url pid ts).paragraph_counter =
      (runSections url pid ts).paragraphs.length ∧
    paraIdsFrom url 0 (runSections url pid ts).paragraphs ∧
    (∀ s ∈ (runSections url pid ts).sections,
      ∃ n : Nat, 1 ≤ n ∧ n ≤ gateCount ts ∧
        s.id = _generate_id (url ++ "#" ++ toString n ++ "#" ++ s.title)) := by
  have hrun : runSections url pid ts =
      ⟨0 + gateCount ts, 0 + admitTotal ts,
       [] ++ (segGroups url pid 0 0 ts).map Prod.fst,
       [] ++ ((segGroups url pid 0 0 ts).map Prod.snd).flatten⟩ :=
    segFold_eq url pid ts 0 0 [] []
  rw [hrun]
  refine ⟨by simp, ?_, ?_, ?_⟩
  · show 0 + admitTotal ts =
      ([] ++ ((segGroups url pid 0 0 ts).map Prod.snd).flatten).length
    rw [List.nil_append, Nat.zero_add, segGroups_flatten_length url pid ts 0 0]
  · simpa using segGroups_idsFrom url pid ts 0 0
  · intro s hs
    simp only [List.nil_append] at hs
    obtain ⟨g, hgmem, rfl⟩ := List.mem_map.mp hs
    obtain ⟨_, _, _, _, _, ⟨n, hn1, hn2, hn3⟩, _⟩ :=
      segGroups_mem url pid ts 0 0 g hgmem
    exact ⟨n, by omega, by omega, hn3⟩

/-- Witness for C4 on a single 30-character candidate section. -/
theorem claim_C4_witness :
    (runSections "u" none [w4sec]).section_counter = gateCount [w4sec] ∧
    (runSections "u" none [w4sec]).paragraph_counter =
      (runSections "u" none [w4sec]).paragraphs.length ∧
    paraIdsFrom "u" 0 (runSections "u" none [w4sec]).paragraphs ∧
    (∃ n : Nat, 1 ≤ n ∧ n ≤ gateCount [w4sec] ∧
      (((runSections "u" none [w4sec]).sections).getD 0 secDefault).id =
        _generate_id ("u" ++ "#" ++ toString n ++ "#" ++
          (((runSections "u" none [w4sec]).sections).getD 0 secDefault).title)) :=
  ⟨(claim_C4 "u" none [w4sec]).1, (claim_C4 "u" none [w4sec]).2.1,
   (claim_C4 "u" none [w4sec]).2.2.1,
   (claim_C4 "u" none [w4sec]).2.2.2 _ (by decide)⟩

/-- C5: the segmenter is deterministic — two runs on identical url and
text yield identical records, being a pure function — and its ids are
content-addressed: paragraph ids hash (url, "para", ordinal) with the
ordinal equal to the record's 1-based page-global position, and each
section id hashes (url, ordinal, title) with the title truncated to at
most 50 characters. -/
theorem claim_C5 (url text : String) (pid : Option String) :
    _extract_sections_and_paragraphs url text pid =
      _extract_sections_and_paragraphs url text pid ∧
    paraIdsFrom url 0 (_extract_sections_and_paragraphs url text pid).2 ∧
    (∀ s ∈ (_extract_sections_and_paragraphs url text pid).1,
      s.title.data.length ≤ 50 ∧
      ∃ n : Nat, s.id = _generate_id (url ++ "#" ++ toString n ++ "#" ++ s.title)) := by
  by_cases hcond : ((normalizeText text.data).isEmpty ||
      decide ((normalizeText text.data).length < 100)) = true
  · have he : _extract_sections_and_paragraphs url text pid = ([], []) := by
      simp only [_extract_sections_and_paragraphs, segmentContent]
      rw [if_pos hcond]
    rw [he]
    refine ⟨rfl, True.intro, ?_⟩
    intro s hs
    simp at hs
  · have hx := extract_eq_groups url text pid (eq_false_of_ne_true hcond)
    have hx1 : (_extract_sections_and_paragraphs url text pid).1 =
        (segGroups url pid 0 0
          (pySplit ['\n', '\n'] (normalizeText text.data))).map Prod.fst := by
      rw [hx]
    have hx2 : (_extract_sections_and_paragraphs url text pid).2 =
        ((segGroups url pid 0 0
          (pySplit ['\n', '\n'] (normalizeText text.data))).map Prod.snd).flatten := by
      rw [hx]
    refine ⟨rfl, ?_, ?_⟩
    · rw [hx2]
      exact segGroups_idsFrom url pid _ 0 0
    · intro s hs
      rw [hx1] at hs
      obtain ⟨g, hgmem, rfl⟩ := List.mem_map.mp hs
      obtain ⟨_, _, _, _, h5, ⟨n, _, _, hn3⟩, _⟩ :=
        segGroups_mem url pid _ 0 0 g hgmem
      exact ⟨h5, n, hn3⟩

/-- Witness for C5 on the 113-character three-line page. -/
theorem claim_C5_witness :
    _extract_sections_and_paragraphs "u" w1text none =
      _extract_sections_and_paragraphs "u" w1text none ∧
    paraIdsFrom "u" 0 (_extract_sections_and_paragraphs "u" w1text none).2 ∧
    ((((_extract_sections_and_paragraphs "u" w1text none).1).getD 0
        secDefault).title.data.length ≤ 50 ∧
     ∃ n : Nat, (((_extract_sections_and_paragraphs "u" w1text none).1).getD 0
        secDefault).id =
       _generate_id ("u" ++ "#" ++ toString n ++ "#" ++
         (((_extract_sections_and_paragraphs "u" w1text none).1).getD 0
           secDefault).title)) :=
  ⟨(claim_C5 "u" w1text none).1, (claim_C5 "u" w1text none).2.1,
   (claim_C5 "u" w1text none).2.2 _ (by decide)⟩

/-- C10: whenever the segmenter emits any section or paragraph for a
page, the page record for the same URL exists (its content passed the
50-character admission because the segmenter's own 100-character gate is
stricter on the same normalized text), and every emitted Section and
Paragraph carries page_id = some of that page's id, which is the hash of
the URL. -/
theorem claim_C10 (url title text : String)
    (h : (scrapePageRecords url title text).2.1 ≠ [] ∨
         (scrapePageRecords url title text).2.2 ≠ []) :
    ∃ pd, (scrapePageRecords url title text).1 = some pd ∧
      pd.id = _generate_id url ∧ pd.url = url ∧
      (∀ s ∈ (scrapePageRecords url title text).2.1, s.page_id = some pd.id) ∧
      (∀ p ∈ (scrapePageRecords url title text).2.2, p.page_id = some pd.id) := by
  by_cases hcond : ((normalizeText text.data).isEmpty ||
      decide ((normalizeText text.data).length < 100)) = true
  · exfalso
    have he : ∀ pid, _extract_sections_and_paragraphs url text pid = ([], []) := by
      intro pid
      simp only [_extract_sections_and_paragraphs, segmentContent]
      rw [if_pos hcond]
    rcases h with h | h
    · exact h (by simp [scrapePageRecords, he])
    · exact h (by simp [scrapePageRecords, he])
  · have h' := eq_false_of_ne_true hcond
    obtain ⟨hemp, hlen⟩ := Bool.or_eq_false_iff.mp h'
    have hlen100 : ¬ (normalizeText text.data).length < 100 := by
      simpa using hlen
    have hlen50 : ¬ (normalizeText text.data).length < 50 := by omega
    have hpage : _extract_page_content url title text =
        some { id := _generate_id url, title := title, url := url,
               content := String.mk (normalizeText text.data),
               character_count := (normalizeText text.data).length } := by
      simp [_extract_page_content, hemp, hlen50]
    have hsp1 : (scrapePageRecords url title text).1 =
        some { id := _generate_id url, title := title, url := url,
               content := String.mk (normalizeText text.data),
               character_count := (normalizeText text.data).length } := by
      simp [scrapePageRecords, hpage]
    have hsp2 : (scrapePageRecords url title text).2 =
        _extract_sections_and_paragraphs url text (some (_generate_id url)) := by
      simp [scrapePageRecords, hpage]
    have hx := extract_eq_groups url text (some (_generate_id url)) h'
    refine ⟨_, hsp1, rfl, rfl, ?_, ?_⟩
    · intro s hs
      rw [show (scrapePageRecords url title text).2.1 =
          (segGroups url (some (_generate_id url)) 0 0
            (pySplit ['\n', '\n'] (normalizeText text.data))).map Prod.fst from by
        rw [hsp2, hx]] at hs
      obtain ⟨g, hgmem, rfl⟩ := List.mem_map.mp hs
      exact (segGroups_mem url (some (_generate_id url)) _ 0 0 g hgmem).2.2.1
    · intro p hp
      rw [show (scrapePageRecords url title text).2.2 =
          ((segGroups url (some (_generate_id url)) 0 0
            (pySplit ['\n', '\n'] (normalizeText text.data))).map Prod.snd).flatten
          from by rw [hsp2, hx]] at hp
      obtain ⟨l, hl, hpl⟩ := List.mem_flatten.mp hp
      obtain ⟨g, hgmem, rfl⟩ := List.mem_map.mp hl
      exact ((segGroups_mem url (some (_generate_id url)) _ 0 0 g
        hgmem).2.2.2.2.2.2 p hpl).2

/-- Witness for C10 on the 113-character three-line page. -/
theorem claim_C10_witness :
    ∃ pd, (scrapePageRecords "u" "T" w1text).1 = some pd ∧
      pd.id = _generate_id "u" ∧ pd.url = "u" ∧
      (∀ s ∈ (scrapePageRecords "u" "T" w1text).2.1, s.page_id = some pd.id) ∧
      (∀ p ∈ (scrapePageRecords "u" "T" w1text).2.2, p.page_id = some pd.id) :=
  claim_C10 "u" "T" w1text (Or.inl (by decide))

end ITNB
